import Mathlib

/-!
# Verification of the monkeystats activity-heatmap core (src/heatmap.py)

Shallow embedding of the heatmap pipeline:

* dates are modelled as integer day numbers with day 0 falling on a Monday,
  so Python `datetime.weekday()` (Monday = 0 .. Sunday = 6) is `d % 7`
  (`Int.emod` agrees with Python `%` for a positive modulus);
* a daily count (`int | None` in the source) is `Option ℕ`;
* Python floats in `calc_limits` (the `0.1` trim factor and the mean) are
  modelled exactly over `ℚ`; for series of realistic length the float and
  rational computations agree (`int(n * 0.1) = n / 10` for all `n` below
  `10^15`, and the thresholds only feed integer comparisons);
* a Python exception (`ZeroDivisionError` in `calc_limits`) is `none` in an
  `Option` result.
-/

set_option maxRecDepth 8000

namespace Monkeystats

/-- Python `math.ceil` on an exact rational: the smallest integer `≥ q`,
computed as `-floor (-q)` with the executable `Rat.floor`. -/
def ceilq (q : ℚ) : ℤ := -(Rat.floor (-q))

/-- The executable `Rat.floor` agrees with the mathematical floor. -/
theorem ratFloor_eq (q : ℚ) : q.floor = ⌊q⌋ := by
  rw [Rat.floor_def', ← Rat.floor_def]

/-- The executable `ceilq` agrees with the mathematical ceiling. -/
theorem ceilq_eq (q : ℚ) : ceilq q = ⌈q⌉ := by
  rw [ceilq, ratFloor_eq, Int.floor_neg, neg_neg]

/-- The constant `TOTAL_DAYS = 7 * 53` of heatmap.py line 7. -/
def TOTAL_DAYS : ℕ := 7 * 53

/-- Python `date.weekday()`: Monday = 0 .. Sunday = 6, under the convention
that day 0 of the integer calendar is a Monday. -/
def weekday (d : ℤ) : ℤ := d % 7

/-- heatmap.py lines 126-132, `get_start_date`: subtract 52 weeks from the
last test date, then move back `weekday + 1` days. -/
def get_start_date (last_test_date : ℤ) : ℤ :=
  let start_date := last_test_date - 52 * 7
  start_date - (weekday start_date + 1)

/-- The last day shown by the heatmap: the padded series produced for
`today` covers the `TOTAL_DAYS = 371` days starting at
`get_start_date today`, so the implied window end is `start + 370`. -/
def end_date (today : ℤ) : ℤ := get_start_date today + 370

/-- Modelled from the spec: "`end_date` = the next Saturday on or after
`today` (0 days forward if `today` is already Saturday)". With Monday = 0
weekday numbering this is `today + ((5 - weekday today) mod 7)`. -/
def spec_next_saturday (today : ℤ) : ℤ := today + (5 - weekday today) % 7

/-- heatmap.py lines 99-123, `pad_heatmap_data`.
`full_range = (today - start_date).days + 1`; front-pad with zeros up to
`full_range`, keep the last `full_range` entries (`data[-full_range:]`),
then append `[0] * (53*7 - full_range)` (empty when the count is negative,
exactly as in Python).  All call sites have `start_date ≤ today`. -/
def pad_heatmap_data (data : List (Option ℕ)) (start_date today : ℤ) :
    List (Option ℕ) :=
  let full_range : ℕ := (today - start_date).toNat + 1
  let data2 :=
    if data.length < full_range then
      List.replicate (full_range - data.length) (some 0) ++ data
    else data
  data2.drop (data2.length - full_range) ++
    List.replicate (7 * 53 - full_range) (some 0)

/-- heatmap.py line 11: `filtered = [v for v in data if v]`.  Python
truthiness keeps exactly the entries that are neither `None` nor `0`. -/
def filteredOf (data : List (Option ℕ)) : List ℕ :=
  (data.filterMap id).filter (fun v => v != 0)

/-- Insertion of one element into a sorted list (ascending). -/
def insertAsc (x : ℕ) : List ℕ → List ℕ
  | [] => [x]
  | y :: ys => if x ≤ y then x :: y :: ys else y :: insertAsc x ys

/-- heatmap.py line 13: `sorted(filtered)` — ascending insertion sort, which
returns the same list as Python `sorted` (the sorted permutation; the
elements are bare naturals, so stability cannot matter). -/
def sortAsc (l : List ℕ) : List ℕ := l.foldr insertAsc []

/-- heatmap.py line 14: `trim_start = int(len(sorted_data) * 0.1)`.
For every length below `10^15` the float expression `int(n * 0.1)` equals
`n / 10` in natural division, so the model is exact for any feasible
series. -/
def trimStartOf (n : ℕ) : ℕ := n / 10

/-- heatmap.py line 15: `trimmed = sorted_data[trim_start:-trim_start]`.
When `trim_start = 0` the Python slice is `[0:0]`, i.e. the EMPTY list
(not the whole list); otherwise it is the sublist from `trim_start` to
`len - trim_start`. -/
def trimmedOf (data : List (Option ℕ)) : List ℕ :=
  let s := sortAsc (filteredOf data)
  let t := trimStartOf s.length
  if t = 0 then [] else (s.drop t).take (s.length - 2 * t)

/-- heatmap.py line 17: the mean `sum(trimmed) / len(trimmed)` as an exact
rational (`mkRat` is exact division; the guard for the empty list lives in
`calc_limits`, where Python raises `ZeroDivisionError`). -/
def meanOf (data : List (Option ℕ)) : ℚ :=
  mkRat ((trimmedOf data).sum : ℤ) (trimmedOf data).length

/-- heatmap.py line 18: `max(filtered)`.  The fold with base `0` equals the
Python `max` whenever `filtered` is nonempty (all entries are positive);
`calc_limits` only reaches this line in that case. -/
def maxOf (data : List (Option ℕ)) : ℕ :=
  (filteredOf data).foldr max 0

/-- heatmap.py line 20: the six thresholds
`[0, ceil(mean/2), ceil(mean), ceil(mean*1.5), max_value - 1, max_value]`,
written with exact rational arithmetic: for `mean = s/n` we have
`mean/2 = s/(2n)` and `mean*1.5 = 3s/(2n)`. -/
def limitsOf (data : List (Option ℕ)) : List ℤ :=
  let s : ℤ := ((trimmedOf data).sum : ℤ)
  let n : ℕ := (trimmedOf data).length
  [0, ceilq (mkRat s (2 * n)), ceilq (mkRat s n), ceilq (mkRat (3 * s) (2 * n)),
    (maxOf data : ℤ) - 1, (maxOf data : ℤ)]

/-- heatmap.py lines 10-20, `calc_limits`: `none` models the Python
`ZeroDivisionError` raised at line 17 when `trimmed` is empty (which
happens exactly when fewer than 10 values survive the truthiness filter,
including the empty, all-`None` and all-zero series). -/
def calc_limits (data : List (Option ℕ)) : Option (List ℤ) :=
  if trimmedOf data = [] then none else some (limitsOf data)

/-- heatmap.py lines 40-47: the palette actually used (the last of the
three successive assignments to `colors`; the two earlier tables are dead
stores). -/
def colors : List ℕ := [236, 239, 243, 246, 252, 3]

/-- heatmap.py lines 52-56, the inner loop of `map_counts`: walk the
thresholds in order and return the index of the first one accepted by
`count is None or count <= limit`; `none` models the fall-through where no
threshold matches and nothing is appended. -/
def firstLevel (limits : List ℤ) (count : Option ℕ) : Option ℕ :=
  match limits with
  | [] => none
  | l :: rest =>
    if count.isNone ∨ ((count.getD 0 : ℤ) ≤ l) then some 0
    else (firstLevel rest count).map (· + 1)

/-- heatmap.py lines 23-58, `map_counts`: each day contributes the palette
entry of its level; a day matching no threshold contributes nothing
(`filterMap`), and a `calc_limits` exception propagates (`none`). -/
def map_counts (data : List (Option ℕ)) : Option (List ℕ) :=
  (calc_limits data).map fun limits =>
    data.filterMap fun count => (firstLevel limits count).map fun i => colors.getD i 0

/-- heatmap.py line 201: `sum(d for d in data if d)` — the header's total
test count (truthiness again skips `None` and `0`). -/
def total_count (data : List (Option ℕ)) : ℕ :=
  (filteredOf data).sum

/-- One rendered heatmap cell.  heatmap.py lines 137-142: `plot(bg, fg)`
produces the string `"\x1b[38;5;" fg "m\x1b[48;5;" bg "m▄\x1b[0m"`; the
glyph `▄` is the lower-half block, so the background color `bg` paints the
top half of the cell and the foreground color `fg` paints the bottom half.
A cell is therefore determined by the pair `(bg, fg)` = (top color, bottom
color), which is what we record. -/
structure HalfCell where
  bg : ℕ
  fg : ℕ
deriving DecidableEq, Repr

/-- Python `lst[::2]`: every second element starting with the first. -/
def everyOther {α : Type} : List α → List α
  | [] => []
  | [a] => [a]
  | a :: _ :: rest => a :: everyOther rest

/-- Python `itertools.zip_longest` of two lists with fill value `fill`,
combined with the map `f` applied to each pair. -/
def zipLongestWith {α β : Type} (f : α → α → β) (fill : α) :
    List α → List α → List β
  | [], ys => ys.map fun y => f fill y
  | x :: xs, [] => f x fill :: zipLongestWith f fill xs []
  | x :: xs, y :: ys => f x y :: zipLongestWith f fill xs ys

/-- heatmap.py line 150: one printed line,
`[plot(*colors) for colors in zip(top, bottom)]` — `zip` pairs the two
rows positionally, and `plot(*(t, b))` passes the top row's color as `bg`
and the bottom row's color as `fg`. -/
def mkLine (top bottom : List ℕ) : List HalfCell :=
  (top.zip bottom).map fun p => ⟨p.1, p.2⟩

/-- heatmap.py lines 135-153, `make_half_rows`: prepend one all-background
row (`(0,) * 53`), then pair rows `[::2]` with rows `[1::2]` via
`zip_longest(…, fillvalue = [0] * 53)` and render each pair as a line. -/
def make_half_rows (rows : List (List ℕ)) : List (List HalfCell) :=
  let padded := List.replicate 53 0 :: rows
  zipLongestWith mkLine (List.replicate 53 0) (everyOther padded)
    (everyOther padded.tail)

/-- heatmap.py line 195: `weeks = [heatmap[i : i + 7] for i in range(0, TOTAL_DAYS, 7)]`
— 53 slices of (at most) 7 entries each. -/
def weeksOf (heatmap : List ℕ) : List (List ℕ) :=
  (List.range 53).map fun w => (heatmap.drop (7 * w)).take 7

/-- Python star-expanded `itertools.zip_longest` over a list of lists with
fill value `fill` (heatmap.py line 196): as many output rows as the
longest input list; row `i` collects the `i`-th entry of every list,
substituting `fill` where a list is too short.  (The source uses the
string `" "` as fill value; it is unreachable for the full 53×7 grids this
is applied to, and the model uses a fill of the same type as the row
entries.) -/
def transposeFill {α : Type} (fill : α) (ls : List (List α)) : List (List α) :=
  let n := (ls.map List.length).foldr max 0
  (List.range n).map fun i => ls.map fun l => l.getD i fill

/-- heatmap.py line 196: `rows = list(zip_longest(*weeks, fillvalue=" "))`. -/
def rowsOf (heatmap : List ℕ) : List (List ℕ) :=
  transposeFill 0 (weeksOf heatmap)

/-- Weekday row `i` of the rendered grid: day `i` of every one of the 53
displayed weeks.  For a window starting on a Sunday, row 0 holds the
Sundays and row 6 the Saturdays. -/
def weekdayRow (heatmap : List ℕ) (i : ℕ) : List ℕ :=
  (List.range 53).map fun w => heatmap.getD (7 * w + i) 0

end Monkeystats


namespace Monkeystats

/-- C1, amended.  For every `today` the render window starts on a Sunday,
ends on a Saturday, and spans exactly 371 days; its end is
`today + (5 - weekday today)`, the Saturday of the Monday-based week of
`today`.  This is the next Saturday on or after `today` whenever `today`
is Monday through Saturday — but NOT when `today` is a Sunday (the window
then ends on the previous Saturday, `today - 1`). -/
theorem c1_window_amended (today : ℤ) :
    weekday (get_start_date today) = 6 ∧
    weekday (end_date today) = 5 ∧
    end_date today - get_start_date today + 1 = 371 ∧
    end_date today = today + (5 - weekday today) ∧
    (weekday today ≠ 6 → end_date today = spec_next_saturday today) := by
  simp only [weekday, get_start_date, end_date, spec_next_saturday]
  omega

/-- C1 witness: the amended window facts instantiated at a Monday
(`today = 0`), where the window end is the next Saturday `5`. -/
theorem c1_window_amended_witness :
    weekday (get_start_date 0) = 6 ∧
    weekday (end_date 0) = 5 ∧
    end_date 0 - get_start_date 0 + 1 = 371 ∧
    end_date 0 = 0 + (5 - weekday 0) ∧
    end_date 0 = spec_next_saturday 0 :=
  ⟨(c1_window_amended 0).1, (c1_window_amended 0).2.1, (c1_window_amended 0).2.2.1,
    (c1_window_amended 0).2.2.2.1, (c1_window_amended 0).2.2.2.2 (by decide)⟩

/-- C1 counterexample: on a Sunday (`today = 6`; day 0 is a Monday) the
window ends on day `5` — the Saturday BEFORE `today` — while the claimed
"next Saturday on or after `today`" is day `12`. -/
theorem c1_sunday_counterexample :
    weekday 6 = 6 ∧ end_date 6 = 5 ∧ spec_next_saturday 6 = 12 ∧
    end_date 6 ≠ spec_next_saturday 6 ∧ end_date 6 < 6 := by
  decide

/-- C2: on a Sunday `today` the padded series has 372 entries, not 371
(the function's own docstring promises a 53-week span).  For comparison,
on a Saturday or a Monday the length is the documented 371, for empty and
for oversized input alike. -/
theorem c2_sunday_length_bug :
    (pad_heatmap_data [] (get_start_date 6) 6).length = 372 ∧
    (pad_heatmap_data (List.replicate 400 (some 2)) (get_start_date 6) 6).length = 372 ∧
    (pad_heatmap_data [] (get_start_date 5) 5).length = 371 ∧
    (pad_heatmap_data (List.replicate 400 (some 2)) (get_start_date 0) 0).length = 371 := by
  decide

/-- C3: the pipeline does NOT degrade gracefully on empty-like input.  For
an empty, an all-`None`, and an all-zero series, `filtered` (and hence
`trimmed`) is empty and `sum(trimmed) / len(trimmed)` raises
`ZeroDivisionError` (modelled by `none`), instead of producing an all
lowest-level grid.  The header sum itself would be 0 as claimed. -/
theorem c3_empty_series_raises :
    map_counts [] = none ∧
    map_counts (List.replicate 371 none) = none ∧
    map_counts (List.replicate 371 (some 0)) = none ∧
    total_count [] = 0 ∧ total_count (List.replicate 371 none) = 0 := by
  decide

/-- C6: with a single observed value, `trim = int(0.1 * 1) = 0` and the
slice `sorted_data[0:-0]` is `[0:0]`, i.e. EMPTY — not `filtered`
unchanged as the spec requires — so `calc_limits` raises
`ZeroDivisionError` (modelled by `none`) for every series with fewer than
10 observed values. -/
theorem c6_zero_trim_bug :
    filteredOf [some 1] = [1] ∧ trimStartOf 1 = 0 ∧
    trimmedOf [some 1] = [] ∧ calc_limits [some 1] = none ∧
    calc_limits (List.replicate 9 (some 7)) = none := by
  decide

/-- A successful `calc_limits` yields exactly `limitsOf`, and only when the
trimmed sample is nonempty. -/
theorem calc_limits_some {data : List (Option ℕ)} {limits : List ℤ}
    (h : calc_limits data = some limits) :
    limits = limitsOf data ∧ trimmedOf data ≠ [] := by
  unfold calc_limits at h
  split at h
  · exact absurd h (by simp)
  · exact ⟨(Option.some.inj h).symm, by assumption⟩

/-- C4 counterexample: the normalizer pads the empty series with `some 0`
(data recorded, zero activity), never with `none`; and the bucketizer
sends a `None` day and a zero day to the SAME output color 236 — the
level-0 palette entry — so no distinguished no-data sentinel exists. -/
theorem c4_no_sentinel_counterexample :
    pad_heatmap_data [] (get_start_date 5) 5 = List.replicate 371 (some 0) ∧
    map_counts (List.replicate 10 (some 1) ++ [none, some 0]) =
      some (List.replicate 10 239 ++ [236, 236]) := by
  decide

/-- C4, amended.  Every entry the normalizer adds is `some 0`, not `none`
(an output entry either comes from the input series or is `some 0`); and
whenever the bucketizer computes thresholds at all, it maps a `None` day
to level 0, exactly the level of a zero-activity day — there is no
distinct background/no-data sentinel. -/
theorem c4_pads_zero_amended :
    (∀ (data : List (Option ℕ)) (s t : ℤ),
      ∀ x ∈ pad_heatmap_data data s t, x ∈ data ∨ x = some 0) ∧
    (∀ (data : List (Option ℕ)) (limits : List ℤ), calc_limits data = some limits →
      firstLevel limits none = some 0 ∧ firstLevel limits (some 0) = some 0) := by
  constructor
  · intro data s t x hx
    simp only [pad_heatmap_data, List.mem_append] at hx
    rcases hx with hx | hx
    · have hx2 := List.drop_subset _ _ hx
      split_ifs at hx2 with hc
      · rcases List.mem_append.mp hx2 with hx3 | hx3
        · exact Or.inr (List.eq_of_mem_replicate hx3)
        · exact Or.inl hx3
      · exact Or.inl hx2
    · exact Or.inr (List.eq_of_mem_replicate hx)
  · intro data limits h
    rcases calc_limits_some h with ⟨rfl, -⟩
    refine ⟨?_, ?_⟩ <;> simp [limitsOf, firstLevel]

/-- C4 witness: the amended facts at concrete inputs — an entry of the
padded empty-adjacent series is `some 0`, and with the all-ones thresholds
both `None` and `0` land on level 0. -/
theorem length_insertAsc (x : ℕ) (l : List ℕ) :
    (insertAsc x l).length = l.length + 1 := by
  induction l with
  | nil => rfl
  | cons y ys ih =>
    simp only [insertAsc]
    split_ifs <;> simp [ih]

theorem sortAsc_cons (x : ℕ) (xs : List ℕ) :
    sortAsc (x :: xs) = insertAsc x (sortAsc xs) := rfl

theorem length_sortAsc (l : List ℕ) : (sortAsc l).length = l.length := by
  induction l with
  | nil => rfl
  | cons x xs ih => rw [sortAsc_cons, length_insertAsc, ih, List.length_cons]

/-- With at least 10 observed values the 10% trim is at least 1 and the
trimmed sample is nonempty, so `calc_limits` does not raise. -/
theorem trimmedOf_ne_nil {data : List (Option ℕ)}
    (h : 10 ≤ (filteredOf data).length) : trimmedOf data ≠ [] := by
  have hs := length_sortAsc (filteredOf data)
  rw [Ne, ← List.length_eq_zero]
  simp only [trimmedOf, trimStartOf]
  split_ifs with h0
  · omega
  · have h10 := Nat.div_mul_le_self (sortAsc (filteredOf data)).length 10
    simp only [List.length_take, List.length_drop]
    omega

theorem le_foldr_max {l : List ℕ} {x : ℕ} (hx : x ∈ l) : x ≤ l.foldr max 0 := by
  induction l with
  | nil => simp at hx
  | cons y ys ih =>
    rcases List.mem_cons.mp hx with rfl | hmem
    · exact le_max_left _ _
    · exact le_trans (ih hmem) (le_max_right _ _)

theorem mem_filteredOf {data : List (Option ℕ)} {a : ℕ}
    (ha : some a ∈ data) (h0 : a ≠ 0) : a ∈ filteredOf data := by
  refine List.mem_filter.mpr ⟨List.mem_filterMap.mpr ⟨some a, ha, rfl⟩, ?_⟩
  simpa using h0

theorem le_maxOf {data : List (Option ℕ)} {a : ℕ}
    (ha : some a ∈ data) (h0 : a ≠ 0) : a ≤ maxOf data :=
  le_foldr_max (mem_filteredOf ha h0)

theorem firstLevel_cons_of_le {l : ℤ} {rest : List ℤ} {c : ℕ} (h : (c:ℤ) ≤ l) :
    firstLevel (l :: rest) (some c) = some 0 := by
  simp [firstLevel, h]

theorem firstLevel_cons_of_lt {l : ℤ} {rest : List ℤ} {c : ℕ} (h : l < (c:ℤ)) :
    firstLevel (l :: rest) (some c) = (firstLevel rest (some c)).map (· + 1) := by
  simp [firstLevel, h.not_le]

/-- A count below some threshold of the list always receives a level. -/
theorem firstLevel_isSome_of_le {limits : List ℤ} {c : ℕ}
    (h : ∃ l ∈ limits, (c:ℤ) ≤ l) :
    ∃ i, firstLevel limits (some c) = some i := by
  induction limits with
  | nil => simp at h
  | cons l rest ih =>
    by_cases hc : (c:ℤ) ≤ l
    · exact ⟨0, firstLevel_cons_of_le hc⟩
    · rcases h with ⟨l', hl', hle⟩
      rcases List.mem_cons.mp hl' with rfl | hmem
      · exact absurd hle hc
      · rcases ih ⟨l', hmem, hle⟩ with ⟨i, hi⟩
        exact ⟨i + 1, by rw [firstLevel_cons_of_lt (not_le.mp hc), hi]; rfl⟩

/-- The threshold walk is monotone in the count: a smaller count never
receives a strictly larger level. -/
theorem firstLevel_mono {limits : List ℤ} {a b : ℕ} (hba : b ≤ a) {la : ℕ}
    (ha : firstLevel limits (some a) = some la) :
    ∃ lb, firstLevel limits (some b) = some lb ∧ lb ≤ la := by
  induction limits generalizing la with
  | nil => simp [firstLevel] at ha
  | cons l rest ih =>
    by_cases hc : (a:ℤ) ≤ l
    · have hb : (b:ℤ) ≤ l := le_trans (by exact_mod_cast hba) hc
      exact ⟨0, firstLevel_cons_of_le hb, Nat.zero_le _⟩
    · by_cases hcb : (b:ℤ) ≤ l
      · exact ⟨0, firstLevel_cons_of_le hcb, Nat.zero_le _⟩
      · rw [firstLevel_cons_of_lt (not_le.mp hc)] at ha
        rcases Option.map_eq_some'.mp ha with ⟨la', hla', rfl⟩
        rcases ih hla' with ⟨lb, hlb, hle⟩
        refine ⟨lb + 1, ?_, by omega⟩
        rw [firstLevel_cons_of_lt (not_le.mp hcb), hlb]; rfl

/-- Every day of the series — `None`, zero or positive — is assigned a
level by the thresholds computed from that same series: `None` and `0`
match the first threshold `0`, and a positive count is at most
`max_value`, the final threshold. -/
theorem firstLevel_total (data : List (Option ℕ)) :
    ∀ c ∈ data, ∃ i, firstLevel (limitsOf data) c = some i := by
  intro c hc
  match c with
  | none => exact ⟨0, by simp [limitsOf, firstLevel]⟩
  | some a =>
    by_cases h0 : a = 0
    · subst h0
      exact ⟨0, by simp [limitsOf, firstLevel]⟩
    · apply firstLevel_isSome_of_le
      refine ⟨(maxOf data : ℤ), by simp [limitsOf], ?_⟩
      exact_mod_cast le_maxOf hc h0

theorem length_filterMap_isSome {α β : Type} {f : α → Option β} {l : List α}
    (h : ∀ x ∈ l, (f x).isSome) : (l.filterMap f).length = l.length := by
  induction l with
  | nil => rfl
  | cons x xs ih =>
    rcases Option.isSome_iff_exists.mp (h x (List.mem_cons_self x xs)) with ⟨b, hb⟩
    rw [List.filterMap_cons, hb, List.length_cons,
      ih fun y hy => h y (List.mem_cons_of_mem x hy), List.length_cons]

theorem c4_pads_zero_amended_witness :
    ((some 0 : Option ℕ) ∈ ([some 3] : List (Option ℕ)) ∨ (some 0 : Option ℕ) = some 0) ∧
    (firstLevel [0, 1, 1, 2, 0, 1] none = some 0 ∧
      firstLevel [0, 1, 1, 2, 0, 1] (some 0) = some 0) :=
  ⟨c4_pads_zero_amended.1 [some 3] (get_start_date 5) 5 (some 0) (by decide),
    c4_pads_zero_amended.2 (List.replicate 10 (some 1)) [0, 1, 1, 2, 0, 1] (by decide)⟩

theorem mkRat_cast_div (a : ℤ) (b : ℕ) : mkRat a b = (a : ℚ) / (b : ℚ) := by
  rw [Rat.mkRat_eq_divInt, Rat.divInt_eq_div]
  norm_cast

theorem meanOf_eq (data : List (Option ℕ)) :
    meanOf data = ((trimmedOf data).sum : ℚ) / ((trimmedOf data).length : ℚ) := by
  rw [meanOf, mkRat_cast_div]
  congr 1

theorem meanOf_nonneg (data : List (Option ℕ)) : 0 ≤ meanOf data := by
  rw [meanOf_eq]
  positivity

theorem ceilq_half_mean (data : List (Option ℕ)) :
    ceilq (mkRat ((trimmedOf data).sum : ℤ) (2 * (trimmedOf data).length)) =
      ⌈meanOf data / 2⌉ := by
  rcases Nat.eq_zero_or_pos (trimmedOf data).length with h0 | hpos
  · rw [ceilq_eq, mkRat_cast_div, meanOf_eq, h0]
    norm_num
  · rw [ceilq_eq, mkRat_cast_div, meanOf_eq]
    congr 1
    have hne : ((trimmedOf data).length : ℚ) ≠ 0 := by positivity
    generalize (trimmedOf data).sum = S
    generalize hN : (trimmedOf data).length = N at hne
    push_cast
    ring

theorem ceilq_mean (data : List (Option ℕ)) :
    ceilq (mkRat ((trimmedOf data).sum : ℤ) (trimmedOf data).length) =
      ⌈meanOf data⌉ := by
  rw [ceilq_eq, meanOf]

theorem ceilq_threeHalves_mean (data : List (Option ℕ)) :
    ceilq (mkRat (3 * ((trimmedOf data).sum : ℤ)) (2 * (trimmedOf data).length)) =
      ⌈meanOf data * 3 / 2⌉ := by
  rcases Nat.eq_zero_or_pos (trimmedOf data).length with h0 | hpos
  · rw [ceilq_eq, mkRat_cast_div, meanOf_eq, h0]
    norm_num
  · rw [ceilq_eq, mkRat_cast_div, meanOf_eq]
    congr 1
    have hne : ((trimmedOf data).length : ℚ) ≠ 0 := by positivity
    generalize (trimmedOf data).sum = S
    generalize hN : (trimmedOf data).length = N at hne
    push_cast
    ring

/-- The thresholds, with each entry in its mathematical form. -/
theorem limitsOf_eq (data : List (Option ℕ)) :
    limitsOf data =
      [0, ⌈meanOf data / 2⌉, ⌈meanOf data⌉, ⌈meanOf data * 3 / 2⌉,
        (maxOf data : ℤ) - 1, (maxOf data : ℤ)] := by
  rw [limitsOf]
  rw [ceilq_half_mean, ceilq_mean, ceilq_threeHalves_mean]

/-- C5 counterexample: in the all-ones series the day with the maximum
count (1) is assigned level 1 — palette color 239 — not the claimed top
level 5: the second threshold `ceil(mean/2) = 1` already matches it. -/
theorem c5_max_not_top_counterexample :
    maxOf (List.replicate 10 (some 1)) = 1 ∧
    calc_limits (List.replicate 10 (some 1)) = some [0, 1, 1, 2, 0, 1] ∧
    firstLevel [0, 1, 1, 2, 0, 1] (some 1) = some 1 ∧
    map_counts (List.replicate 10 (some 1)) = some (List.replicate 10 239) := by
  decide

/-- C5, amended.  The day holding the maximum count is assigned the top
level 5 provided the series has at least 10 observed (non-null, non-zero)
counts — fewer makes `calc_limits` raise — and the maximum strictly
exceeds `ceil(mean * 1.5)`; otherwise the maximum can land in a lower
bucket (level 1 in the all-ones series). -/
theorem c5_max_top_amended (data : List (Option ℕ))
    (hlen : 10 ≤ (filteredOf data).length)
    (hmax : ⌈meanOf data * 3 / 2⌉ < (maxOf data : ℤ)) :
    calc_limits data = some (limitsOf data) ∧
    firstLevel (limitsOf data) (some (maxOf data)) = some 5 := by
  have ht := trimmedOf_ne_nil hlen
  refine ⟨by simp [calc_limits, ht], ?_⟩
  have hmean := meanOf_nonneg data
  have h32 : (0:ℤ) ≤ ⌈meanOf data * 3 / 2⌉ := Int.ceil_nonneg (by linarith)
  have hM : (0:ℤ) < (maxOf data : ℤ) := lt_of_le_of_lt h32 hmax
  have h1 : ⌈meanOf data / 2⌉ < (maxOf data : ℤ) :=
    lt_of_le_of_lt (Int.ceil_le_ceil (by linarith)) hmax
  have h2 : ⌈meanOf data⌉ < (maxOf data : ℤ) :=
    lt_of_le_of_lt (Int.ceil_le_ceil (by linarith)) hmax
  rw [limitsOf_eq, firstLevel_cons_of_lt hM, firstLevel_cons_of_lt h1,
    firstLevel_cons_of_lt h2, firstLevel_cons_of_lt hmax,
    firstLevel_cons_of_lt (by omega), firstLevel_cons_of_le le_rfl]
  rfl

/-- C5 witness: ten ones and a ten — the maximum 10 exceeds
`ceil(mean * 1.5) = 2` and is assigned level 5. -/
theorem c5_max_top_amended_witness :
    calc_limits (List.replicate 10 (some 1) ++ [some 10]) =
      some (limitsOf (List.replicate 10 (some 1) ++ [some 10])) ∧
    firstLevel (limitsOf (List.replicate 10 (some 1) ++ [some 10]))
      (some (maxOf (List.replicate 10 (some 1) ++ [some 10]))) = some 5 :=
  c5_max_top_amended (List.replicate 10 (some 1) ++ [some 10]) (by decide)
    (by rw [← ceilq_threeHalves_mean (List.replicate 10 (some 1) ++ [some 10])]; decide)

/-- C7 counterexample: for the all-ones series the code's thresholds are
`[0, 1, 1, 2, 0, 1]` — NOT non-decreasing (`max_value - 1 = 0` sits below
`ceil(mean * 1.5) = 2`): no running-max normalization exists in the code. -/
theorem c7_thresholds_counterexample :
    calc_limits (List.replicate 10 (some 1)) = some [0, 1, 1, 2, 0, 1] ∧
    ¬ List.Chain' (· ≤ ·) ([0, 1, 1, 2, 0, 1] : List ℤ) := by
  refine ⟨by decide, ?_⟩
  intro h
  simp only [List.chain'_cons, List.chain'_singleton] at h
  omega

/-- C7, amended.  Level assignment IS monotone in the count — for non-null
counts `b ≤ a` of the same series the first-matching-threshold levels
satisfy `level b ≤ level a`, and both exist because every count is at most
the final threshold `max_value` — but the thresholds themselves are not
normalized and need not be non-decreasing. -/
theorem c7_monotone_amended (data : List (Option ℕ)) (limits : List ℤ)
    (a b : ℕ) (hlim : calc_limits data = some limits)
    (ha : some a ∈ data) (hb : some b ∈ data) (hba : b ≤ a) :
    ∃ la lb, firstLevel limits (some a) = some la ∧
      firstLevel limits (some b) = some lb ∧ lb ≤ la := by
  rcases calc_limits_some hlim with ⟨rfl, -⟩
  rcases firstLevel_total data (some a) ha with ⟨la, hla⟩
  rcases firstLevel_mono hba hla with ⟨lb, hlb, hle⟩
  exact ⟨la, lb, hla, hlb, hle⟩

/-- C7 witness: counts 10 and 1 in the same series receive levels 5 and 1. -/
theorem c7_monotone_amended_witness :
    ∃ la lb, firstLevel [0, 1, 1, 2, 9, 10] (some 10) = some la ∧
      firstLevel [0, 1, 1, 2, 9, 10] (some 1) = some lb ∧ lb ≤ la :=
  c7_monotone_amended (List.replicate 10 (some 1) ++ [some 10]) [0, 1, 1, 2, 9, 10]
    10 1 (by decide) (by decide) (by decide) (by decide)

/-- C10: with at least 10 observed counts the bucketizer never raises,
every entry (`None`, zero or positive) matches some threshold — every
count is at most `max_value`, the final threshold — and the output has
exactly one palette entry per input day: the fall-through is unreachable. -/
theorem c10_every_day_classified (data : List (Option ℕ))
    (hlen : 10 ≤ (filteredOf data).length) :
    ∃ out, map_counts data = some out ∧ out.length = data.length := by
  have ht := trimmedOf_ne_nil hlen
  have hcl : calc_limits data = some (limitsOf data) := by simp [calc_limits, ht]
  refine ⟨data.filterMap fun count =>
    (firstLevel (limitsOf data) count).map fun i => colors.getD i 0, ?_, ?_⟩
  · simp [map_counts, hcl]
  · apply length_filterMap_isSome
    intro c hc
    rcases firstLevel_total data c hc with ⟨i, hi⟩
    simp [hi]

/-- C10 witness: thirteen days, ten of them observed — the output list has
all thirteen entries. -/
theorem c10_every_day_classified_witness :
    ∃ out, map_counts (List.replicate 10 (some 1) ++ [none, some 0, some 4]) = some out ∧
      out.length = (List.replicate 10 (some 1) ++ [none, some 0, some 4]).length :=
  c10_every_day_classified (List.replicate 10 (some 1) ++ [none, some 0, some 4])
    (by decide)

/-- C8: normalization is idempotent on an aligned series.  A 371-entry
series whose `last_day` coincides with the window's final Saturday — the
alignment forced by a 371-day window ending at the last series day —
passes through `pad_heatmap_data` unchanged: `full_range` is exactly 371,
so no front padding, no trimming and no tail padding occurs. -/
theorem c8_idempotent (data : List (Option ℕ)) (today : ℤ)
    (hsat : weekday today = 5) (hlen : data.length = 371) :
    pad_heatmap_data data (get_start_date today) today = data := by
  have hstart : today - get_start_date today = 370 := by
    simp only [get_start_date, weekday] at hsat ⊢
    omega
  have h370 : Int.toNat 370 = 370 := rfl
  simp only [pad_heatmap_data, hstart, hlen, h370]
  norm_num
  simp [hlen]

/-- C8 witness: a concrete mixed 371-entry series aligned to a Saturday
`today` (day 5) is returned unchanged. -/
theorem c8_idempotent_witness :
    pad_heatmap_data (List.replicate 100 (some 3) ++ List.replicate 271 none)
      (get_start_date 5) 5 =
      List.replicate 100 (some 3) ++ List.replicate 271 none :=
  c8_idempotent (List.replicate 100 (some 3) ++ List.replicate 271 none) 5
    (by decide) (by decide)

theorem length_weekdayRow (hm : List ℕ) (i : ℕ) : (weekdayRow hm i).length = 53 := by
  simp [weekdayRow]

theorem mkLine_length (top bottom : List ℕ) :
    (mkLine top bottom).length = min top.length bottom.length := by
  simp [mkLine]

/-- Each of the 53 week slices has exactly 7 entries on a full grid. -/
theorem weeksOf_lengths (hm : List ℕ) (hlen : hm.length = 371) :
    (weeksOf hm).map List.length = List.replicate 53 7 := by
  rw [weeksOf, List.map_map]
  refine List.eq_replicate_iff.mpr ⟨by simp, ?_⟩
  intro b hb
  rcases List.mem_map.mp hb with ⟨w, hw, rfl⟩
  have hw53 := List.mem_range.mp hw
  simp only [Function.comp_apply, List.length_take, List.length_drop, hlen]
  omega

/-- On a full 371-day grid, the transposed rows are exactly the seven
weekday rows: row `i` collects day `i` of every week. -/
theorem rowsOf_eq (hm : List ℕ) (hlen : hm.length = 371) :
    rowsOf hm = (List.range 7).map (weekdayRow hm) := by
  rw [rowsOf, transposeFill, weeksOf_lengths hm hlen]
  have hmax : (List.replicate 53 (7:ℕ)).foldr max 0 = 7 := by decide
  rw [hmax]
  apply List.map_congr_left
  intro i hi
  rw [weekdayRow, weeksOf, List.map_map]
  apply List.map_congr_left
  intro w hw
  have hi7 := List.mem_range.mp hi
  simp only [Function.comp_apply, List.getD_eq_getElem?_getD]
  rw [List.getElem?_take, if_pos hi7, List.getElem?_drop]

theorem rowsOf_explicit (hm : List ℕ) (hlen : hm.length = 371) :
    rowsOf hm = [weekdayRow hm 0, weekdayRow hm 1, weekdayRow hm 2, weekdayRow hm 3,
      weekdayRow hm 4, weekdayRow hm 5, weekdayRow hm 6] := by
  rw [rowsOf_eq hm hlen]
  rfl

/-- C9: on a full 371-day grid the heatmap body is exactly 4 printed lines
of 53 two-toned cells.  An all-background row (`(0,) * 53`) is prepended
to the 7 weekday rows before pairing, so the lines encode
(blank, Sunday-row 0), (row 1, row 2), (row 3, row 4), (row 5, row 6);
within `mkLine top bottom` each cell carries the earlier weekday's level
as the glyph's background (its top half) and the later weekday's level as
its foreground (its bottom half). -/
theorem c9_four_half_lines (hm : List ℕ) (hlen : hm.length = 371) :
    make_half_rows (rowsOf hm) =
      [mkLine (List.replicate 53 0) (weekdayRow hm 0),
        mkLine (weekdayRow hm 1) (weekdayRow hm 2),
        mkLine (weekdayRow hm 3) (weekdayRow hm 4),
        mkLine (weekdayRow hm 5) (weekdayRow hm 6)] ∧
    (make_half_rows (rowsOf hm)).length = 4 ∧
    ∀ line ∈ make_half_rows (rowsOf hm), line.length = 53 := by
  have h4 : make_half_rows (rowsOf hm) =
      [mkLine (List.replicate 53 0) (weekdayRow hm 0),
        mkLine (weekdayRow hm 1) (weekdayRow hm 2),
        mkLine (weekdayRow hm 3) (weekdayRow hm 4),
        mkLine (weekdayRow hm 5) (weekdayRow hm 6)] := by
    rw [rowsOf_explicit hm hlen]
    rfl
  refine ⟨h4, by rw [h4]; rfl, ?_⟩
  rw [h4]
  intro line hl
  have hcell : ∀ a b : ℕ, (mkLine (weekdayRow hm a) (weekdayRow hm b)).length = 53 := by
    intro a b
    rw [mkLine_length, length_weekdayRow, length_weekdayRow]
    exact min_self 53
  simp only [List.mem_cons, List.not_mem_nil, or_false] at hl
  rcases hl with rfl | rfl | rfl | rfl
  · rw [mkLine_length, length_weekdayRow, List.length_replicate]
    exact min_self 53
  · exact hcell 1 2
  · exact hcell 3 4
  · exact hcell 5 6

/-- C9 witness: the four-line structure evaluated on the concrete grid
`0, 1, …, 370`. -/
theorem c9_four_half_lines_witness :
    make_half_rows (rowsOf (List.range 371)) =
      [mkLine (List.replicate 53 0) (weekdayRow (List.range 371) 0),
        mkLine (weekdayRow (List.range 371) 1) (weekdayRow (List.range 371) 2),
        mkLine (weekdayRow (List.range 371) 3) (weekdayRow (List.range 371) 4),
        mkLine (weekdayRow (List.range 371) 5) (weekdayRow (List.range 371) 6)] ∧
    (make_half_rows (rowsOf (List.range 371))).length = 4 ∧
    ∀ line ∈ make_half_rows (rowsOf (List.range 371)), line.length = 53 :=
  c9_four_half_lines (List.range 371) (by decide)

end Monkeystats
